import Mathlib

/-!
Verification of the Car Rental backend.

Shallow embedding of `src/main.py` and `src/schemas.py` (a FastAPI + MongoDB
car-rental service).  Documents are embedded as Lean structures, the Mongo
collections as association lists keyed by `Nat` (the denotation of a BSON
ObjectId: a 12-byte value, i.e. a natural number below `16 ^ 24`, rendered as a
24-character hex string).  The store assigns fresh ids from a counter, the
model of MongoDB's fresh-ObjectId generation.  Instants (`datetime`) are
embedded as integer seconds since the epoch; money as rationals, with Python's
`round(x, 2)` embedded as exact half-to-even rounding at two decimals.
-/

/-! ## ObjectId strings

`bson.ObjectId.is_valid` accepts a 24-character hexadecimal string.
`str(ObjectId)` renders the 12 bytes as 24 lowercase hex digits. -/

/-- Hex digit test, as accepted by the ObjectId parser (both cases). -/
def isHexDigitChar (c : Char) : Bool :=
  c.isDigit || (Char.ofNat 97 ≤ c && c ≤ Char.ofNat 102) ||
    (Char.ofNat 65 ≤ c && c ≤ Char.ofNat 70)

/-- `bson.ObjectId.is_valid` on a string: exactly 24 hex characters. -/
def isValidOid (s : String) : Bool :=
  s.length == 24 && s.data.all isHexDigitChar

/-- Lowercase hex digit for a value below 16. -/
def hexChar (n : Nat) : Char :=
  if n < 10 then Char.ofNat (48 + n) else Char.ofNat (87 + n)

/-- Value of a hex digit character. -/
def hexVal (c : Char) : Nat :=
  if c.isDigit then c.toNat - 48
  else if Char.ofNat 97 ≤ c && c ≤ Char.ofNat 102 then c.toNat - 87
  else if Char.ofNat 65 ≤ c && c ≤ Char.ofNat 70 then c.toNat - 55
  else 0

/-- The `k` base-16 digits of `n`, most significant first. -/
def toHexDigits : Nat → Nat → List Nat
  | 0, _ => []
  | k + 1, n => toHexDigits k (n / 16) ++ [n % 16]

/-- `str(ObjectId)`: the id rendered as 24 lowercase hex characters. -/
def natToHex24 (n : Nat) : String :=
  String.mk ((toHexDigits 24 n).map hexChar)

/-- `ObjectId(s)` for a valid hex string: the denoted id. -/
def hexToNat (s : String) : Nat :=
  s.data.foldl (fun a c => 16 * a + hexVal c) 0

/-! ## Python `round`, truthiness -/

/-- Round a rational to the nearest integer, ties to even (Python `round`). -/
def roundHalfEven (q : ℚ) : ℤ :=
  let f : ℤ := ⌊q⌋
  if q - f < 1 / 2 then f
  else if (1 : ℚ) / 2 < q - f then f + 1
  else if f % 2 = 0 then f else f + 1

/-- Python `round(x, 2)`: round to two decimal places, ties to even. -/
def pyRound2 (q : ℚ) : ℚ := (roundHalfEven (100 * q) : ℚ) / 100

/-- Python `x or 0.0` on a float `x` (`0.0` is falsy). -/
def pyOrQ (t : ℚ) : ℚ := if t = 0 then 0 else t

/-- Python `x or 0.0` on an `Optional[float]` (`None` and `0.0` are falsy). -/
def pyOrOpt (t : Option ℚ) : ℚ :=
  match t with
  | none => 0
  | some q => pyOrQ q

/-! ## Documents and store state -/

/-- An HTTP error raised via `HTTPException(status_code, detail)`. -/
structure HErr where
  status : Nat
  detail : String
deriving DecidableEq, Repr

/-- A stored `car` document (`schemas.Car`).  Fields that `main.py` reads with
`dict.get` and a default (`available`, `daily_rate`) are `Option`-valued, so a
document that lacks them can be represented. -/
structure CarDoc where
  make : String
  model : String
  year : ℤ
  plate_number : String
  daily_rate : Option ℚ
  available : Option Bool
  updated_at : Option ℤ
deriving DecidableEq, Repr

/-- A stored `rental` document (`schemas.Rental`). -/
structure RentalDoc where
  car_id : Nat
  customer_name : String
  start_date : ℤ
  end_date : Option ℤ
  status : String
  updated_at : Option ℤ
deriving DecidableEq, Repr

/-- A stored `invoice` document (`schemas.Invoice`; `items` is always `None`
in `compute_invoice`, embedded as a unit option). -/
structure InvoiceDoc where
  rental_id : Nat
  car_id : Nat
  customer_name : String
  start_date : ℤ
  end_date : ℤ
  days : ℤ
  daily_rate : ℚ
  subtotal : ℚ
  tax_rate : ℚ
  tax_amount : ℚ
  total : ℚ
  items : Option Unit
deriving DecidableEq, Repr

/-- The document store: the three collections (documents keyed by id, in
insertion order) plus the fresh-id counter. -/
structure StoreState where
  cars : List (Nat × CarDoc)
  rentals : List (Nat × RentalDoc)
  invoices : List (Nat × InvoiceDoc)
  nextId : Nat
deriving DecidableEq, Repr

/-- The empty store. -/
def initState : StoreState := ⟨[], [], [], 0⟩

/-- `collection.find_one({"_id": k})`: first document with id `k`. -/
def findById {α : Type} : List (Nat × α) → Nat → Option (Nat × α)
  | [], _ => none
  | kv :: t, k => if kv.1 == k then some kv else findById t k

/-- `collection.update_one({"_id": k}, {"$set": ...})`: apply `f` to the first
document with id `k`. -/
def updateFirst {α : Type} (l : List (Nat × α)) (k : Nat) (f : α → α) :
    List (Nat × α) :=
  match l with
  | [] => []
  | kv :: t => if kv.1 == k then (kv.1, f kv.2) :: t else kv :: updateFirst t k f

/-- Modelled from the spec: `database.py` is not under `src/`; per §4.1 its
`create_document(collection, record)` inserts the record and returns its newly
assigned identifier (the caller supplies the fresh id from the counter). -/
def createDoc {α : Type} (l : List (Nat × α)) (k : Nat) (d : α) :
    List (Nat × α) :=
  l ++ [(k, d)]

/-! ## Request bodies -/

/-- `CreateCarRequest` from `main.py`. -/
structure CreateCarRequest where
  make : String
  model : String
  year : ℤ
  plate_number : String
  daily_rate : ℚ
deriving DecidableEq, Repr

/-! ## Invoice computation (`compute_invoice`, `main.py` lines 135-161) -/

/-- `compute_invoice(car, rental, tax_rate)`.  `now` is the value
`datetime.now(timezone.utc)` would yield on the fallback branch for a missing
`end_date`.  Duration arithmetic follows Python `timedelta` normalisation:
`duration.days` is floor division, `duration.seconds` the nonnegative
remainder. -/
def compute_invoice (car : Nat × CarDoc) (rental : Nat × RentalDoc)
    (tax_rate : ℚ) (now : ℤ) : InvoiceDoc :=
  let start : ℤ := rental.2.start_date
  let e : ℤ := rental.2.end_date.getD now
  let duration : ℤ := e - start
  let days : ℤ := max 1 (duration.fdiv 86400 +
    (if 0 < duration.fmod 86400 then 1 else 0))
  let daily_rate : ℚ := car.2.daily_rate.getD 0
  let subtotal : ℚ := pyRound2 ((days : ℚ) * daily_rate)
  let tax_amount : ℚ := pyRound2 (subtotal * pyOrQ tax_rate)
  let total : ℚ := pyRound2 (subtotal + tax_amount)
  { rental_id := rental.1
    car_id := car.1
    customer_name := rental.2.customer_name
    start_date := start
    end_date := e
    days := days
    daily_rate := daily_rate
    subtotal := subtotal
    tax_rate := pyOrQ tax_rate
    tax_amount := tax_amount
    total := total
    items := none }

/-! ## Handlers

Each handler is a function from the store state (plus the request data and the
clock) to the HTTP result together with the successor state; `HTTPException`
becomes `Except.error` with the source status code and detail string. -/

/-- `GET /api/cars` (`list_cars`). -/
def list_cars (s : StoreState) : List (Nat × CarDoc) := s.cars

/-- `POST /api/cars` (`add_car`). -/
def add_car (s : StoreState) (p : CreateCarRequest) :
    Except HErr (Nat × CarDoc) × StoreState :=
  match s.cars.find? (fun kv => kv.2.plate_number == p.plate_number) with
  | some _ => (.error ⟨400, "Plate number already exists"⟩, s)
  | none =>
    let car : CarDoc :=
      { make := p.make
        model := p.model
        year := p.year
        plate_number := p.plate_number
        daily_rate := some p.daily_rate
        available := some true
        updated_at := none }
    let cid := s.nextId
    let cars1 := createDoc s.cars cid car
    let s1 : StoreState := { s with cars := cars1, nextId := s.nextId + 1 }
    match findById cars1 cid with
    | some kv => (.ok kv, s1)
    | none => (.error ⟨500, "Internal Server Error"⟩, s1)

/-- `POST /api/rentals/start` (`start_rental`).  `now` is the request time. -/
def start_rental (s : StoreState) (car_id : String) (customer_name : String)
    (now : ℤ) : Except HErr (Nat × RentalDoc) × StoreState :=
  if isValidOid car_id = false then (.error ⟨400, "Invalid car_id"⟩, s)
  else
    match findById s.cars (hexToNat car_id) with
    | none => (.error ⟨404, "Car not found"⟩, s)
    | some (k, car) =>
      if car.available.getD true = false then
        (.error ⟨400, "Car is not available"⟩, s)
      else
        let rentalDoc : RentalDoc :=
          { car_id := k
            customer_name := customer_name
            start_date := now
            end_date := none
            status := "active"
            updated_at := none }
        let rid := s.nextId
        let rentals1 := createDoc s.rentals rid rentalDoc
        let cars1 := updateFirst s.cars k
          (fun c => { c with available := some false, updated_at := some now })
        let s1 : StoreState :=
          { s with
            rentals := rentals1
            cars := cars1
            nextId := s.nextId + 1 }
        match findById rentals1 rid with
        | some kv => (.ok kv, s1)
        | none => (.error ⟨500, "Internal Server Error"⟩, s1)

/-- `GET /api/rentals/active` (`list_active_rentals`). -/
def list_active_rentals (s : StoreState) : List (Nat × RentalDoc) :=
  s.rentals.filter (fun kv => kv.2.status == "active")

/-- `POST /api/rentals/{rental_id}/return` (`return_rental`).  `now` is the
request time (`end_time`); `clock2` the later instant at which
`compute_invoice` would read the clock on its fallback branch. -/
def return_rental (s : StoreState) (rental_id : String) (tax_rate : Option ℚ)
    (now clock2 : ℤ) :
    Except HErr ((Nat × RentalDoc) × (Nat × InvoiceDoc)) × StoreState :=
  if isValidOid rental_id = false then (.error ⟨400, "Invalid rental_id"⟩, s)
  else
    match findById s.rentals (hexToNat rental_id) with
    | none => (.error ⟨404, "Rental not found"⟩, s)
    | some (rk, rental) =>
      if rental.status == "returned" then
        (.error ⟨400, "Rental already returned"⟩, s)
      else
        match findById s.cars rental.car_id with
        | none => (.error ⟨404, "Car for rental not found"⟩, s)
        | some (ck, car) =>
          let rentals1 := updateFirst s.rentals rk (fun r =>
            { r with
              end_date := some now
              status := "returned"
              updated_at := some now })
          let cars1 := updateFirst s.cars ck (fun c =>
            { c with available := some true, updated_at := some now })
          match findById rentals1 rk with
          | none =>
            (.error ⟨500, "Internal Server Error"⟩,
              { s with rentals := rentals1, cars := cars1 })
          | some (rk2, rental2) =>
            let inv := compute_invoice (ck, car) (rk2, rental2)
              (pyOrOpt tax_rate) clock2
            let iid := s.nextId
            let invoices1 := createDoc s.invoices iid inv
            let s1 : StoreState :=
              { s with
                rentals := rentals1
                cars := cars1
                invoices := invoices1
                nextId := s.nextId + 1 }
            match findById invoices1 iid with
            | none => (.error ⟨500, "Internal Server Error"⟩, s1)
            | some ikv => (.ok ((rk2, rental2), ikv), s1)

/-- Modelled from the spec: `get_documents` lives in the missing
`database.py`; per §4.1 it returns all documents of the collection in storage
order.  `GET /api/invoices` (`list_invoices`). -/
def list_invoices (s : StoreState) : List (Nat × InvoiceDoc) := s.invoices

/-- `GET /api/invoices/{invoice_id}` (`get_invoice`). -/
def get_invoice (s : StoreState) (invoice_id : String) :
    Except HErr (Nat × InvoiceDoc) :=
  if isValidOid invoice_id = false then .error ⟨400, "Invalid invoice_id"⟩
  else
    match findById s.invoices (hexToNat invoice_id) with
    | none => .error ⟨404, "Invoice not found"⟩
    | some kv => .ok kv

/-- The route table of the FastAPI app: every `(method, path)` pair declared
by a decorator in `main.py`. -/
def routes : List (String × String) :=
  [("GET", "/"),
   ("GET", "/api/cars"),
   ("POST", "/api/cars"),
   ("POST", "/api/rentals/start"),
   ("GET", "/api/rentals/active"),
   ("POST", "/api/rentals/\x7brental_id\x7d/return"),
   ("GET", "/api/invoices"),
   ("GET", "/api/invoices/\x7binvoice_id\x7d"),
   ("GET", "/test")]

/-! ## Reachability -/

/-- One API call against the store (any arguments, successful or not). -/
inductive Step : StoreState → StoreState → Prop
  | add (s : StoreState) (p : CreateCarRequest) : Step s (add_car s p).2
  | start (s : StoreState) (raw name : String) (now : ℤ) :
      Step s (start_rental s raw name now).2
  | ret (s : StoreState) (raw : String) (tax : Option ℚ) (t1 t2 : ℤ) :
      Step s (return_rental s raw tax t1 t2).2

/-- States reachable from the empty store by API calls. -/
def Reachable (s : StoreState) : Prop :=
  Relation.ReflTransGen Step initState s

/-! ## Decidability of results -/

deriving instance DecidableEq for Except



/-! ## Basic lemmas about the store primitives -/

theorem findById_eq_some {α : Type} {l : List (Nat × α)} {k : Nat}
    {kv : Nat × α} (h : findById l k = some kv) : kv.1 = k ∧ kv ∈ l := by
  induction l with
  | nil => simp [findById] at h
  | cons hd t ih =>
    by_cases hk : hd.1 = k
    · have hh : hd = kv := by simpa [findById, hk] using h
      subst hh
      exact ⟨hk, List.mem_cons_self _ _⟩
    · have hh : findById t k = some kv := by simpa [findById, hk] using h
      rcases ih hh with ⟨h1, h2⟩
      exact ⟨h1, List.mem_cons_of_mem _ h2⟩

theorem findById_nodup_mem {α : Type} {l : List (Nat × α)} {k : Nat} {v : α}
    (hnd : (l.map Prod.fst).Nodup) (hm : (k, v) ∈ l) :
    findById l k = some (k, v) := by
  induction l with
  | nil => cases hm
  | cons hd t ih =>
    rw [List.map_cons] at hnd
    have hnd' := List.nodup_cons.mp hnd
    rcases List.mem_cons.mp hm with h | h
    · rw [← h]
      simp [findById]
    · have hk : ¬ hd.1 = k := by
        intro hkk
        exact hnd'.1 (hkk ▸ List.mem_map.mpr ⟨(k, v), h, rfl⟩)
      simpa [findById, hk] using ih hnd'.2 h

theorem updateFirst_map_fst {α : Type} (l : List (Nat × α)) (k : Nat)
    (f : α → α) : (updateFirst l k f).map Prod.fst = l.map Prod.fst := by
  induction l with
  | nil => rfl
  | cons hd t ih =>
    by_cases h : hd.1 = k
    · simp [updateFirst, h]
    · simp [updateFirst, h, ih]

theorem findById_updateFirst_self {α : Type} {l : List (Nat × α)} {k : Nat}
    {v : α} (f : α → α) (h : findById l k = some (k, v)) :
    findById (updateFirst l k f) k = some (k, f v) := by
  induction l with
  | nil => simp [findById] at h
  | cons hd t ih =>
    by_cases hk : hd.1 = k
    · have hh : hd = (k, v) := by simpa [findById, hk] using h
      subst hh
      simp [updateFirst, findById, hk]
    · have hh : findById t k = some (k, v) := by simpa [findById, hk] using h
      simpa [updateFirst, findById, hk] using ih hh

theorem findById_updateFirst_ne {α : Type} (l : List (Nat × α)) {j k : Nat}
    (f : α → α) (h : j ≠ k) :
    findById (updateFirst l j f) k = findById l k := by
  induction l with
  | nil => rfl
  | cons hd t ih =>
    by_cases hj : hd.1 = j
    · have hk : ¬ hd.1 = k := by
        rw [hj]
        exact h
      simp [updateFirst, findById, hj, hk, h]
    · by_cases hk : hd.1 = k
      · simp [updateFirst, findById, hj, hk, Ne.symm h]
      · simpa [updateFirst, findById, hj, hk] using ih

theorem mem_updateFirst {α : Type} {l : List (Nat × α)} {k : Nat} {f : α → α}
    {kv : Nat × α} (h : kv ∈ updateFirst l k f) :
    kv ∈ l ∨ ∃ d, (k, d) ∈ l ∧ kv = (k, f d) := by
  induction l with
  | nil => cases h
  | cons hd t ih =>
    by_cases hk : hd.1 = k
    · rw [show updateFirst (hd :: t) k f = (hd.1, f hd.2) :: t by
        simp [updateFirst, hk]] at h
      rcases List.mem_cons.mp h with h | h
      · right
        refine ⟨hd.2, ?_, ?_⟩
        · rw [← hk]
          exact List.mem_cons_self _ _
        · rw [h, hk]
      · left
        exact List.mem_cons_of_mem _ h
    · rw [show updateFirst (hd :: t) k f = hd :: updateFirst t k f by
        simp [updateFirst, hk]] at h
      rcases List.mem_cons.mp h with h | h
      · left
        rw [h]
        exact List.mem_cons_self _ _
      · rcases ih h with h1 | ⟨d, hd1, hd2⟩
        · left
          exact List.mem_cons_of_mem _ h1
        · right
          exact ⟨d, List.mem_cons_of_mem _ hd1, hd2⟩

theorem mem_updateFirst_of_found {α : Type} {l : List (Nat × α)} {k : Nat}
    {v : α} (f : α → α) (h : findById l k = some (k, v)) :
    (k, f v) ∈ updateFirst l k f := by
  induction l with
  | nil => simp [findById] at h
  | cons hd t ih =>
    by_cases hk : hd.1 = k
    · have hh : hd = (k, v) := by simpa [findById, hk] using h
      subst hh
      simp [updateFirst]
    · have hh : findById t k = some (k, v) := by simpa [findById, hk] using h
      rw [show updateFirst (hd :: t) k f = hd :: updateFirst t k f by
        simp [updateFirst, hk]]
      exact List.mem_cons_of_mem _ (ih hh)

theorem findById_append_right {α : Type} {l : List (Nat × α)} {j : Nat}
    (v : α) (hfresh : ∀ kv ∈ l, kv.1 ≠ j) :
    findById (l ++ [(j, v)]) j = some (j, v) := by
  induction l with
  | nil => simp [findById]
  | cons hd t ih =>
    have hne : ¬ hd.1 = j := hfresh hd (List.mem_cons_self _ _)
    have ht := ih (fun kv hkv => hfresh kv (List.mem_cons_of_mem _ hkv))
    simpa [findById, hne] using ht

theorem findById_append_left {α : Type} {l : List (Nat × α)} {j k : Nat}
    {v w : α} (h : findById l k = some (k, w)) :
    findById (l ++ [(j, v)]) k = some (k, w) := by
  induction l with
  | nil => simp [findById] at h
  | cons hd t ih =>
    by_cases hk : hd.1 = k
    · have hh : hd = (k, w) := by simpa [findById, hk] using h
      subst hh
      simp [findById, hk]
    · have hh : findById t k = some (k, w) := by simpa [findById, hk] using h
      simpa [findById, hk] using ih hh

theorem findById_append_isSome {α : Type} (l : List (Nat × α)) (j : Nat)
    (v : α) : (findById (l ++ [(j, v)]) j).isSome = true := by
  induction l with
  | nil => simp [findById]
  | cons hd t ih =>
    by_cases hk : hd.1 = j
    · simp [findById, hk]
    · simpa [findById, hk] using ih

/-! ## Lemmas about hex rendering of ids -/

theorem hexVal_hexChar {d : Nat} (h : d < 16) : hexVal (hexChar d) = d := by
  interval_cases d <;> decide

theorem isHexDigitChar_hexChar {d : Nat} (h : d < 16) :
    isHexDigitChar (hexChar d) = true := by
  interval_cases d <;> decide

theorem toHexDigits_length (k : Nat) : ∀ n, (toHexDigits k n).length = k := by
  induction k with
  | zero => intro n; rfl
  | succ k ih =>
    intro n
    simp [toHexDigits, ih]

theorem toHexDigits_lt (k : Nat) :
    ∀ n d, d ∈ toHexDigits k n → d < 16 := by
  induction k with
  | zero => intro n d h; cases h
  | succ k ih =>
    intro n d h
    rcases List.mem_append.mp h with h | h
    · exact ih _ d h
    · rw [List.mem_singleton.mp h]
      exact Nat.mod_lt _ (by norm_num)

theorem toHexDigits_foldl (k : Nat) :
    ∀ n a, n < 16 ^ k →
      (toHexDigits k n).foldl (fun acc d => 16 * acc + d) a = a * 16 ^ k + n := by
  induction k with
  | zero =>
    intro n a hn
    interval_cases n
    simp [toHexDigits]
  | succ k ih =>
    intro n a hn
    have hdiv : n / 16 < 16 ^ k := by
      rw [Nat.div_lt_iff_lt_mul (by norm_num)]
      calc n < 16 ^ (k + 1) := hn
      _ = 16 ^ k * 16 := by rw [pow_succ]
    rw [toHexDigits, List.foldl_append, ih _ a hdiv]
    have hmod : 16 * (n / 16) + n % 16 = n := Nat.div_add_mod n 16
    have : a * 16 ^ k * 16 = a * 16 ^ (k + 1) := by
      rw [pow_succ, mul_assoc]
    simp only [List.foldl_cons, List.foldl_nil]
    omega

theorem foldl_hexVal_map (l : List Nat) :
    ∀ a, (∀ d ∈ l, d < 16) →
      (l.map hexChar).foldl (fun acc c => 16 * acc + hexVal c) a
        = l.foldl (fun acc d => 16 * acc + d) a := by
  induction l with
  | nil => intro a _; rfl
  | cons d t ih =>
    intro a hlt
    simp only [List.map_cons, List.foldl_cons]
    rw [hexVal_hexChar (hlt d (List.mem_cons_self _ _))]
    exact ih _ (fun x hx => hlt x (List.mem_cons_of_mem _ hx))

theorem data_mk_eq (l : List Char) : (String.mk l).data = l := rfl

theorem hexToNat_natToHex24 {n : Nat} (h : n < 16 ^ 24) :
    hexToNat (natToHex24 n) = n := by
  unfold hexToNat natToHex24
  rw [data_mk_eq, foldl_hexVal_map _ _ (fun d hd => toHexDigits_lt 24 n d hd),
    toHexDigits_foldl 24 n 0 h]
  simp

theorem isValidOid_natToHex24 (n : Nat) : isValidOid (natToHex24 n) = true := by
  unfold isValidOid natToHex24
  rw [Bool.and_eq_true_iff]
  constructor
  · rw [String.length_mk]
    simp [toHexDigits_length]
  · rw [data_mk_eq, List.all_eq_true]
    intro c hc
    rcases List.mem_map.mp hc with ⟨d, hd, hcd⟩
    rw [← hcd]
    exact isHexDigitChar_hexChar (toHexDigits_lt 24 n d hd)


/-! ## Day-count and rounding arithmetic -/

theorem fdiv_ite_eq_ceil (d : ℤ) :
    d.fdiv 86400 + (if 0 < d.fmod 86400 then 1 else 0)
      = ⌈(d : ℚ) / 86400⌉ := by
  have hb : (0 : ℤ) < 86400 := by norm_num
  have hq : d.fmod 86400 + 86400 * d.fdiv 86400 = d := Int.fmod_add_fdiv d 86400
  have hr0 : 0 ≤ d.fmod 86400 := Int.fmod_nonneg' d hb
  have hr1 : d.fmod 86400 < 86400 := Int.fmod_lt_of_pos d hb
  have hcast : (d.fmod 86400 : ℚ) + 86400 * (d.fdiv 86400 : ℚ) = (d : ℚ) := by
    exact_mod_cast congrArg (fun z : ℤ => (z : ℚ)) hq
  by_cases hr : 0 < d.fmod 86400
  · rw [if_pos hr]
    symm
    rw [Int.ceil_eq_iff]
    constructor
    · rw [lt_div_iff₀ (by norm_num)]
      push_cast
      have hrq : (0 : ℚ) < (d.fmod 86400 : ℚ) := by exact_mod_cast hr
      nlinarith
    · rw [div_le_iff₀ (by norm_num)]
      push_cast
      have hrq : (d.fmod 86400 : ℚ) < 86400 := by exact_mod_cast hr1
      nlinarith
  · rw [if_neg hr, add_zero]
    have hr00 : d.fmod 86400 = 0 := le_antisymm (not_lt.mp hr) hr0
    have hd : d = 86400 * d.fdiv 86400 := by omega
    symm
    conv_lhs => rw [hd]
    push_cast
    rw [mul_comm (86400 : ℚ) _, mul_div_cancel_right₀ _ (by norm_num : (86400 : ℚ) ≠ 0),
      Int.ceil_intCast]

theorem pyRound2_intCast (z : ℤ) : pyRound2 (z : ℚ) = (z : ℚ) := by
  unfold pyRound2 roundHalfEven
  have h100 : (100 : ℚ) * (z : ℚ) = ((100 * z : ℤ) : ℚ) := by push_cast; ring
  rw [h100, Int.floor_intCast]
  rw [if_pos (by simp : ((100 * z : ℤ) : ℚ) - ((100 * z : ℤ) : ℚ) < 1 / 2)]
  push_cast
  rw [mul_comm]
  exact mul_div_cancel_right₀ _ (by norm_num)

/-! ## Field equations of `compute_invoice` -/

theorem compute_invoice_days_eq (car : Nat × CarDoc) (rental : Nat × RentalDoc)
    (t : ℚ) (now : ℤ) :
    (compute_invoice car rental t now).days
      = max 1 ((rental.2.end_date.getD now - rental.2.start_date).fdiv 86400
          + (if 0 < (rental.2.end_date.getD now
              - rental.2.start_date).fmod 86400 then 1 else 0)) := rfl

theorem compute_invoice_daily_rate_eq (car : Nat × CarDoc)
    (rental : Nat × RentalDoc) (t : ℚ) (now : ℤ) :
    (compute_invoice car rental t now).daily_rate
      = car.2.daily_rate.getD 0 := rfl

theorem compute_invoice_subtotal_eq (car : Nat × CarDoc)
    (rental : Nat × RentalDoc) (t : ℚ) (now : ℤ) :
    (compute_invoice car rental t now).subtotal
      = pyRound2 (((compute_invoice car rental t now).days : ℚ)
          * (car.2.daily_rate.getD 0)) := rfl

theorem compute_invoice_tax_amount_eq (car : Nat × CarDoc)
    (rental : Nat × RentalDoc) (t : ℚ) (now : ℤ) :
    (compute_invoice car rental t now).tax_amount
      = pyRound2 ((compute_invoice car rental t now).subtotal * pyOrQ t) := rfl

theorem compute_invoice_total_eq (car : Nat × CarDoc)
    (rental : Nat × RentalDoc) (t : ℚ) (now : ℤ) :
    (compute_invoice car rental t now).total
      = pyRound2 ((compute_invoice car rental t now).subtotal
          + (compute_invoice car rental t now).tax_amount) := rfl

theorem compute_invoice_end_date_eq (car : Nat × CarDoc)
    (rental : Nat × RentalDoc) (t : ℚ) (now : ℤ) :
    (compute_invoice car rental t now).end_date
      = rental.2.end_date.getD now := rfl

theorem pyOrQ_eq (t : ℚ) : pyOrQ t = t := by
  unfold pyOrQ
  by_cases h : t = 0
  · rw [if_pos h, h]
  · rw [if_neg h]

/-! ## Claim theorems -/

/-- Claim C1: `compute_invoice` bills
`days = max(1, whole_days + (1 if leftover seconds > 0 else 0))`; equivalently
the duration is rounded up to a whole day (ceiling) with a floor of one billed
day, so a zero-duration rental is billed one day.  Concretely, a one-second
rental (start epoch second 1704067200 = `2024-01-01T00:00:00Z`, end
1704067201) at daily rate 100 and tax rate 0 yields 1 billed day, subtotal
100.00 and total 100.00; exactly two whole days (end 1704240000 =
`2024-01-03T00:00:00Z`) at daily rate 50 yields 2 billed days and subtotal
100.00. -/
theorem compute_invoice_billed_days :
    (∀ (car : Nat × CarDoc) (rental : Nat × RentalDoc) (t : ℚ) (now : ℤ),
      (compute_invoice car rental t now).days
        = max 1 ((rental.2.end_date.getD now - rental.2.start_date).fdiv 86400
            + (if 0 < (rental.2.end_date.getD now
                - rental.2.start_date).fmod 86400 then 1 else 0))) ∧
    (∀ (car : Nat × CarDoc) (rental : Nat × RentalDoc) (t : ℚ) (now : ℤ),
      (compute_invoice car rental t now).days
        = max 1 ⌈((rental.2.end_date.getD now - rental.2.start_date : ℤ) : ℚ)
            / 86400⌉) ∧
    (∀ (i j c yr : Nat) (mk md pl nm st : String) (av : Option Bool)
        (ua rua : Option ℤ) (t2 : ℤ),
      (compute_invoice (i, ⟨mk, md, yr, pl, some 100, av, ua⟩)
          (j, ⟨c, nm, 1704067200, some 1704067201, st, rua⟩) 0 t2).days = 1 ∧
      (compute_invoice (i, ⟨mk, md, yr, pl, some 100, av, ua⟩)
          (j, ⟨c, nm, 1704067200, some 1704067201, st, rua⟩) 0 t2).subtotal
        = 100 ∧
      (compute_invoice (i, ⟨mk, md, yr, pl, some 100, av, ua⟩)
          (j, ⟨c, nm, 1704067200, some 1704067201, st, rua⟩) 0 t2).total
        = 100) ∧
    (∀ (i j c yr : Nat) (mk md pl nm st : String) (av : Option Bool)
        (ua rua : Option ℤ) (t2 : ℤ),
      (compute_invoice (i, ⟨mk, md, yr, pl, some 50, av, ua⟩)
          (j, ⟨c, nm, 1704067200, some 1704240000, st, rua⟩) 0 t2).days = 2 ∧
      (compute_invoice (i, ⟨mk, md, yr, pl, some 50, av, ua⟩)
          (j, ⟨c, nm, 1704067200, some 1704240000, st, rua⟩) 0 t2).subtotal
        = 100) := by
  refine ⟨?_, ?_, ?_, ?_⟩
  · intro car rental t now
    exact compute_invoice_days_eq car rental t now
  · intro car rental t now
    rw [compute_invoice_days_eq, fdiv_ite_eq_ceil]
  · intro i j c yr mk md pl nm st av ua rua t2
    have hdays : (compute_invoice (i, ⟨mk, md, yr, pl, some 100, av, ua⟩)
        (j, ⟨c, nm, 1704067200, some 1704067201, st, rua⟩) 0 t2).days = 1 := by
      rw [compute_invoice_days_eq]
      simp only [Option.getD_some]
      norm_num [show Int.fdiv 1 86400 = 0 from rfl,
        show Int.fmod 1 86400 = 1 from rfl]
    have hsub : (compute_invoice (i, ⟨mk, md, yr, pl, some 100, av, ua⟩)
        (j, ⟨c, nm, 1704067200, some 1704067201, st, rua⟩) 0 t2).subtotal
        = 100 := by
      rw [compute_invoice_subtotal_eq, hdays]
      show pyRound2 (((1 : ℤ) : ℚ) * (some (100 : ℚ)).getD 0) = 100
      rw [show (((1 : ℤ) : ℚ) * (some (100 : ℚ)).getD 0) = ((100 : ℤ) : ℚ) by
        simp only [Option.getD_some]; push_cast; ring]
      rw [pyRound2_intCast]
      norm_num
    refine ⟨hdays, hsub, ?_⟩
    have htax : (compute_invoice (i, ⟨mk, md, yr, pl, some 100, av, ua⟩)
        (j, ⟨c, nm, 1704067200, some 1704067201, st, rua⟩) 0 t2).tax_amount
        = 0 := by
      rw [compute_invoice_tax_amount_eq, hsub]
      rw [show ((100 : ℚ) * pyOrQ 0) = ((0 : ℤ) : ℚ) by
        rw [pyOrQ_eq]; norm_num]
      rw [pyRound2_intCast]
      norm_num
    rw [compute_invoice_total_eq, hsub, htax]
    rw [show ((100 : ℚ) + 0) = ((100 : ℤ) : ℚ) by norm_num]
    rw [pyRound2_intCast]
    norm_num
  · intro i j c yr mk md pl nm st av ua rua t2
    have hdays : (compute_invoice (i, ⟨mk, md, yr, pl, some 50, av, ua⟩)
        (j, ⟨c, nm, 1704067200, some 1704240000, st, rua⟩) 0 t2).days = 2 := by
      rw [compute_invoice_days_eq]
      simp only [Option.getD_some]
      norm_num [show Int.fdiv 172800 86400 = 2 from rfl,
        show Int.fmod 172800 86400 = 0 from rfl]
    refine ⟨hdays, ?_⟩
    rw [compute_invoice_subtotal_eq, hdays]
    show pyRound2 (((2 : ℤ) : ℚ) * (some (50 : ℚ)).getD 0) = 100
    rw [show (((2 : ℤ) : ℚ) * (some (50 : ℚ)).getD 0) = ((100 : ℤ) : ℚ) by
      simp only [Option.getD_some]; push_cast; ring]
    rw [pyRound2_intCast]
    norm_num

/-- Claim C2: `compute_invoice` rounds independently at each stage:
`subtotal = round2(days * daily_rate)`, `tax_amount = round2(subtotal *
tax_rate)` computed from the already-rounded subtotal, and
`total = round2(subtotal + tax_amount)`; a tax rate that is omitted or null
(`None`) is taken as 0 by the `or 0.0` coercions. -/
theorem compute_invoice_stagewise_rounding :
    (∀ (car : Nat × CarDoc) (rental : Nat × RentalDoc) (t : ℚ) (now : ℤ),
      (compute_invoice car rental t now).subtotal
        = pyRound2 (((compute_invoice car rental t now).days : ℚ)
            * car.2.daily_rate.getD 0) ∧
      (compute_invoice car rental t now).tax_amount
        = pyRound2 ((compute_invoice car rental t now).subtotal * t) ∧
      (compute_invoice car rental t now).total
        = pyRound2 ((compute_invoice car rental t now).subtotal
            + (compute_invoice car rental t now).tax_amount) ∧
      (compute_invoice car rental t now).tax_rate = t) ∧
    pyOrOpt none = 0 ∧
    pyOrOpt (some 0) = 0 ∧
    (∀ (s : StoreState) (raw : String) (t1 t2 : ℤ),
      return_rental s raw none t1 t2 = return_rental s raw (some 0) t1 t2) := by
  refine ⟨?_, rfl, ?_, ?_⟩
  · intro car rental t now
    refine ⟨compute_invoice_subtotal_eq car rental t now, ?_, ?_, ?_⟩
    · rw [compute_invoice_tax_amount_eq, pyOrQ_eq]
    · exact compute_invoice_total_eq car rental t now
    · show pyOrQ t = t
      exact pyOrQ_eq t
  · show pyOrQ 0 = 0
    rw [pyOrQ_eq]
  · intro s raw t1 t2
    unfold return_rental
    rw [show pyOrOpt none = pyOrOpt (some 0) by
      show (0 : ℚ) = pyOrQ 0
      rw [pyOrQ_eq]]

/-! ## Concrete fixtures for witnesses -/

/-- A syntactically invalid ObjectId string. -/
def badId : String := "xyz"

/-- `natToHex24 0`: a valid ObjectId string denoting id 0. -/
def oid0 : String := "000000000000000000000000"

/-- `natToHex24 1`: a valid ObjectId string denoting id 1. -/
def oid1 : String := "000000000000000000000001"

/-- A valid ObjectId string denoting an id not used by any fixture. -/
def oidMissing : String := "ffffffffffffffffffffffff"

/-- Customer name used in witnesses. -/
def aliceName : String := "Alice"

/-- Second customer name used in witnesses. -/
def bobName : String := "Bob"

/-! ## Claim C4 -/

/-- Claim C4: returning a rental whose status is already `"returned"` fails
with InvalidState (HTTP 400, "Rental already returned") and leaves the store
completely unchanged: no invoice is created and every document keeps its prior
field values. -/
theorem return_already_returned_unchanged (s : StoreState) (raw : String)
    (tax : Option ℚ) (t1 t2 : ℤ) (kv : Nat × RentalDoc)
    (hv : isValidOid raw = true)
    (hf : findById s.rentals (hexToNat raw) = some kv)
    (hst : kv.2.status = "returned") :
    return_rental s raw tax t1 t2
      = (.error ⟨400, "Rental already returned"⟩, s) := by
  obtain ⟨rk, r⟩ := kv
  unfold return_rental
  rw [hv, hf]
  simp only at hst
  simp [hst]

/-- Witness for C4: a concrete store holding one already-returned rental. -/
def c4State : StoreState :=
  ⟨[(0, ⟨"Toyota", "Corolla", 2020, "AB123", some 100, some true, none⟩)],
   [(1, ⟨0, "Alice", 0, some 50, "returned", some 50⟩)], [], 2⟩

theorem return_already_returned_unchanged_witness :
    return_rental c4State oid1 none 60 61
      = (.error ⟨400, "Rental already returned"⟩, c4State) :=
  return_already_returned_unchanged c4State oid1 none 60 61
    (1, ⟨0, "Alice", 0, some 50, "returned", some 50⟩)
    (by decide) (by decide) rfl

/-! ## Claims C6 and C7: identifier errors of Start -/

/-- Claim C6 counterexample: starting a rental with the malformed car id
`"xyz"` fails with HTTP 400 "Invalid car_id" — the InvalidInput error — and
not with NotFound, whose HTTP status is 404. -/
theorem start_rental_malformed_is_400 :
    (start_rental initState badId aliceName 0).1
      = Except.error ⟨400, "Invalid car_id"⟩ ∧
    (HErr.mk 400 "Invalid car_id").status ≠ 404 := by
  constructor
  · with_unfolding_all decide
  · decide

/-- Claim C6 (amended): Start fails with InvalidInput (HTTP 400,
"Invalid car_id") when the car id is malformed, with NotFound (HTTP 404) when
the id is well-formed but no car has it, and with InvalidState (HTTP 400,
"Car is not available") when the car exists but is unavailable. -/
theorem start_rental_error_cases (s : StoreState) (raw name : String)
    (now : ℤ) (k : Nat) (c : CarDoc) :
    (isValidOid raw = false →
      (start_rental s raw name now).1 = .error ⟨400, "Invalid car_id"⟩) ∧
    (isValidOid raw = true → findById s.cars (hexToNat raw) = none →
      (start_rental s raw name now).1 = .error ⟨404, "Car not found"⟩) ∧
    (isValidOid raw = true → findById s.cars (hexToNat raw) = some (k, c) →
      c.available = some false →
      (start_rental s raw name now).1
        = .error ⟨400, "Car is not available"⟩) := by
  refine ⟨?_, ?_, ?_⟩
  · intro hv
    unfold start_rental
    rw [hv]
    rfl
  · intro hv hf
    unfold start_rental
    rw [hv, hf]
    rfl
  · intro hv hf hav
    unfold start_rental
    rw [hv, hf]
    simp [hav]

/-- A car that is currently unavailable, and a store holding it at id 0. -/
def c6Car : CarDoc := ⟨"Toyota", "Corolla", 2020, "AB123", some 100, some false, none⟩

def c6State : StoreState := ⟨[(0, c6Car)], [], [], 1⟩

theorem start_rental_error_cases_witness :
    (start_rental c6State badId aliceName 0).1
      = .error ⟨400, "Invalid car_id"⟩ ∧
    (start_rental c6State oidMissing aliceName 0).1
      = .error ⟨404, "Car not found"⟩ ∧
    (start_rental c6State oid0 aliceName 0).1
      = .error ⟨400, "Car is not available"⟩ :=
  ⟨(start_rental_error_cases c6State badId aliceName 0 0 c6Car).1 (by decide),
   (start_rental_error_cases c6State oidMissing aliceName 0 0 c6Car).2.1
     (by decide) (by decide),
   (start_rental_error_cases c6State oid0 aliceName 0 0 c6Car).2.2
     (by decide) (by decide) rfl⟩

/-- Claim C7: starting a rental against a nonexistent (but well-formed)
car id yields NotFound (HTTP 404), while a malformed car id yields
InvalidInput (HTTP 400, "Invalid car_id"). -/
theorem start_rental_notfound_vs_invalid (s : StoreState) (raw name : String)
    (now : ℤ) :
    (isValidOid raw = true → findById s.cars (hexToNat raw) = none →
      (start_rental s raw name now).1 = .error ⟨404, "Car not found"⟩) ∧
    (isValidOid raw = false →
      (start_rental s raw name now).1 = .error ⟨400, "Invalid car_id"⟩) := by
  constructor
  · intro hv hf
    unfold start_rental
    rw [hv, hf]
    rfl
  · intro hv
    unfold start_rental
    rw [hv]
    rfl

theorem start_rental_notfound_vs_invalid_witness :
    (start_rental initState oidMissing aliceName 0).1
      = .error ⟨404, "Car not found"⟩ ∧
    (start_rental initState badId aliceName 0).1
      = .error ⟨400, "Invalid car_id"⟩ :=
  ⟨(start_rental_notfound_vs_invalid initState oidMissing aliceName 0).1
     (by decide) (by decide),
   (start_rental_notfound_vs_invalid initState badId aliceName 0).2
     (by decide)⟩

/-! ## Claim C8: duplicate plate numbers -/

/-- Claim C8: creating a car whose `plate_number` equals that of any existing
car document fails with InvalidState (HTTP 400, "Plate number already
exists"), regardless of every other field of the request, and the store is
unchanged — no car is inserted. -/
theorem add_car_duplicate_plate (s : StoreState) (p : CreateCarRequest)
    (kv : Nat × CarDoc) (hm : kv ∈ s.cars)
    (hp : kv.2.plate_number = p.plate_number) :
    add_car s p = (.error ⟨400, "Plate number already exists"⟩, s) := by
  unfold add_car
  have h1 : (s.cars.find?
      (fun x => x.2.plate_number == p.plate_number)).isSome = true := by
    rw [List.find?_isSome]
    exact ⟨kv, hm, by simp [hp]⟩
  obtain ⟨w, hw⟩ := Option.isSome_iff_exists.mp h1
  rw [hw]

/-- Witness fixtures for C8: the stored car and a request that differs in
every field except the plate number. -/
def c8Car : CarDoc := ⟨"Toyota", "Corolla", 2020, "AB123", some 100, some true, none⟩

def c8State : StoreState := ⟨[(0, c8Car)], [], [], 1⟩

def c8Payload : CreateCarRequest := ⟨"Honda", "Civic", 2021, "AB123", 55⟩

theorem add_car_duplicate_plate_witness :
    add_car c8State c8Payload
      = (.error ⟨400, "Plate number already exists"⟩, c8State) :=
  add_car_duplicate_plate c8State c8Payload (0, c8Car)
    (List.mem_cons_self _ _) rfl

/-! ## Claim C10: car documents lacking the `available` field -/

/-- Claim C10: for a stored car document with no `available` field at all,
Start treats the car as available — `car.get("available", True)` defaults to
true — so the availability check passes, the rental is created (appended to
the rental collection in state `"active"`), and the car is marked
unavailable. -/
theorem start_rental_missing_available (s : StoreState) (raw name : String)
    (now : ℤ) (k : Nat) (c : CarDoc)
    (hv : isValidOid raw = true)
    (hf : findById s.cars (hexToNat raw) = some (k, c))
    (hav : c.available = none) :
    (∃ out, (start_rental s raw name now).1 = .ok out) ∧
    (start_rental s raw name now).2.rentals
      = s.rentals ++ [(s.nextId, ⟨k, name, now, none, "active", none⟩)] ∧
    (start_rental s raw name now).2.cars
      = updateFirst s.cars k (fun c0 =>
          { c0 with available := some false, updated_at := some now }) := by
  unfold start_rental
  rw [hv, hf]
  have hcond : (c.available.getD true = false) = False := by
    rw [hav]
    simp
  obtain ⟨w, hw⟩ := Option.isSome_iff_exists.mp
    (findById_append_isSome s.rentals s.nextId
      ⟨k, name, now, none, "active", none⟩)
  simp only [hcond, if_false, createDoc]
  rw [hw]
  exact ⟨⟨w, rfl⟩, rfl, rfl⟩

/-- Witness fixtures for C10: a car document lacking `available`. -/
def c10Car : CarDoc := ⟨"VW", "Golf", 2019, "XY987", some 80, none, none⟩

def c10State : StoreState := ⟨[(0, c10Car)], [], [], 1⟩

theorem start_rental_missing_available_witness :
    (∃ out, (start_rental c10State oid0 aliceName 7).1 = .ok out) ∧
    (start_rental c10State oid0 aliceName 7).2.rentals
      = [(1, ⟨0, aliceName, 7, none, "active", none⟩)] ∧
    (start_rental c10State oid0 aliceName 7).2.cars
      = updateFirst c10State.cars 0 (fun c0 =>
          { c0 with available := some false, updated_at := some 7 }) :=
  start_rental_missing_available c10State oid0 aliceName 7 0 c10Car
    (by decide) (by decide) rfl

/-! ## Claim C5: the invoice uses the persisted end instant -/

/-- Claim C5: in every successful Return, the invoice is computed only after
the end instant `t1` has been written to the rental and the rental re-read:
the returned rental snapshot has `end_date = some t1`, it is what the store
now holds, and the invoice's `end_date` equals `t1` — the
`end_date or now()` fallback never reads the later clock `t2`, as the final
conjunct states: the invoice end instant is `end_date.getD t2` with `end_date`
set. -/
theorem return_uses_persisted_end_date (s : StoreState) (raw : String)
    (tax : Option ℚ) (t1 t2 : ℤ)
    (out : (Nat × RentalDoc) × (Nat × InvoiceDoc)) (s' : StoreState)
    (hfresh : ∀ kv ∈ s.invoices, kv.1 ≠ s.nextId)
    (h : return_rental s raw tax t1 t2 = (.ok out, s')) :
    out.2.2.end_date = t1 ∧
    out.1.2.end_date = some t1 ∧
    findById s'.rentals out.1.1 = some out.1 ∧
    out.2.2.end_date = (out.1.2.end_date).getD t2 := by
  unfold return_rental at h
  split at h
  · simp at h
  split at h
  · simp at h
  rename_i rk rental hfr
  split at h
  · simp at h
  rename_i hret
  split at h
  · simp at h
  rename_i ck car hfc
  simp only [createDoc] at h
  split at h
  · simp at h
  rename_i rk2 rental2 hfr2
  split at h
  · simp at h
  rename_i ikv hfi
  have hkey := (findById_eq_some hfr).1
  have hupd := findById_updateFirst_self
    (fun r => { r with
      end_date := some t1
      status := "returned"
      updated_at := some t1 }) (hkey ▸ hfr)
  have hcopy := hfr2
  rw [hupd] at hcopy
  have hpair := Option.some.inj hcopy
  have hrk : rk = rk2 := by
    have := congrArg Prod.fst hpair
    simpa using this
  have hr2 := congrArg Prod.snd hpair
  simp only at hr2
  subst hrk
  subst hr2
  have hikv : ikv = (s.nextId, compute_invoice (ck, car)
      (rk, { rental with
        end_date := some t1
        status := "returned"
        updated_at := some t1 }) (pyOrOpt tax) t2) := by
    have hfull := findById_append_right (compute_invoice (ck, car)
      (rk, { rental with
        end_date := some t1
        status := "returned"
        updated_at := some t1 }) (pyOrOpt tax) t2) hfresh
    rw [hfull] at hfi
    exact (Option.some.inj hfi).symm
  obtain ⟨h1, h2⟩ := Prod.mk.injEq _ _ _ _ |>.mp h
  have hout := congrArg (fun e => match e with
    | Except.ok v => v
    | Except.error _ => ((rk, { rental with
        end_date := some t1
        status := "returned"
        updated_at := some t1 }), ikv)) h1
  simp only at hout
  subst hout
  subst h2
  refine ⟨?_, rfl, ?_, ?_⟩
  · rw [hikv, compute_invoice_end_date_eq]
    rfl
  · exact hupd
  · rw [hikv, compute_invoice_end_date_eq]

/-- Witness fixtures for C5: a store with one rented car and its active
rental, returned at instant 7 with fallback clock 9. -/
def c5Car : CarDoc := ⟨"Toyota", "Corolla", 2020, "AB123", some 100, some false, some 0⟩

def c5Rental : RentalDoc := ⟨0, "Alice", 0, none, "active", none⟩

def c5State : StoreState := ⟨[(0, c5Car)], [(1, c5Rental)], [], 2⟩

def c5After : StoreState := (return_rental c5State oid1 none 7 9).2

def c5Out : (Nat × RentalDoc) × (Nat × InvoiceDoc) :=
  ((1, ⟨0, "Alice", 0, some 7, "returned", some 7⟩),
   (2, ⟨1, 0, "Alice", 0, 7, 1, 100, 100, 0, 0, 100, none⟩))

set_option maxRecDepth 16000 in
theorem return_uses_persisted_end_date_witness :
    c5Out.2.2.end_date = 7 ∧
    c5Out.1.2.end_date = some 7 ∧
    findById c5After.rentals c5Out.1.1 = some c5Out.1 ∧
    c5Out.2.2.end_date = c5Out.1.2.end_date.getD 9 :=
  return_uses_persisted_end_date c5State oid1 none 7 9 c5Out c5After
    (by simp [c5State]) (by with_unfolding_all decide)

/-! ## Claim C9: list / get-by-id round trip -/

/-- Claim C9 counterexample: of the three list endpoints, only invoices have
a corresponding get-by-id endpoint.  The route table declared in `main.py`
contains no `GET /api/cars/{car_id}` and no `GET /api/rentals/{rental_id}`
route, so records returned by `GET /api/cars` and `GET /api/rentals/active`
cannot be fetched by id at all. -/
theorem no_get_by_id_for_cars_or_rentals :
    (("GET", "/api/cars/\x7bcar_id\x7d") ∉ routes) ∧
    (("GET", "/api/rentals/\x7brental_id\x7d") ∉ routes) ∧
    ("GET", "/api/invoices/\x7binvoice_id\x7d") ∈ routes := by
  refine ⟨?_, ?_, ?_⟩ <;> decide

/-- Claim C9 (amended): for the one list endpoint that has a get-by-id
counterpart, the round trip holds: every record returned by
`GET /api/invoices` is individually fetchable via `GET /api/invoices/{id}`
(rendering its id as the 24-hex-digit ObjectId string) and comes back with
identical field values.  Cars and rentals have no get-by-id endpoints. -/
theorem list_get_invoice_roundtrip (s : StoreState) (kv : Nat × InvoiceDoc)
    (hnd : (s.invoices.map Prod.fst).Nodup)
    (hlt : kv.1 < 16 ^ 24)
    (hm : kv ∈ list_invoices s) :
    get_invoice s (natToHex24 kv.1) = .ok kv := by
  obtain ⟨i, doc⟩ := kv
  unfold get_invoice
  rw [if_neg (by simp [isValidOid_natToHex24])]
  rw [hexToNat_natToHex24 hlt]
  rw [findById_nodup_mem hnd hm]

/-- Witness fixtures for C9: a store holding one invoice. -/
def c9Inv : InvoiceDoc := ⟨1, 0, "Alice", 0, 7, 1, 100, 100, 0, 0, 100, none⟩

def c9State : StoreState := ⟨[], [], [(2, c9Inv)], 3⟩

theorem list_get_invoice_roundtrip_witness :
    get_invoice c9State (natToHex24 2) = .ok (2, c9Inv) :=
  list_get_invoice_roundtrip c9State (2, c9Inv) (by simp [c9State])
    (by norm_num) (by simp [c9State, list_invoices])

/-! ## Claim C3: the rental-exclusivity invariant -/

theorem mem_updateFirst_key {α : Type} {l : List (Nat × α)} {k : Nat}
    {f : α → α} {kv : Nat × α} {v : α}
    (hnd : (l.map Prod.fst).Nodup) (h : kv ∈ updateFirst l k f)
    (hk : kv.1 = k) (hf : findById l k = some (k, v)) : kv = (k, f v) := by
  induction l with
  | nil => simp [findById] at hf
  | cons hd t ih =>
    rw [List.map_cons] at hnd
    have hnd' := List.nodup_cons.mp hnd
    by_cases hhd : hd.1 = k
    · have hh : hd = (k, v) := by simpa [findById, hhd] using hf
      rw [show updateFirst (hd :: t) k f = (hd.1, f hd.2) :: t by
        simp [updateFirst, hhd]] at h
      rcases List.mem_cons.mp h with h | h
      · rw [h, hh]
      · exfalso
        apply hnd'.1
        rw [hh]
        exact hk ▸ List.mem_map.mpr ⟨kv, h, rfl⟩
    · have hf' : findById t k = some (k, v) := by
        simpa [findById, hhd] using hf
      rw [show updateFirst (hd :: t) k f = hd :: updateFirst t k f by
        simp [updateFirst, hhd]] at h
      rcases List.mem_cons.mp h with h | h
      · exfalso
        apply hhd
        rw [← h]
        exact hk
      · exact ih hnd'.2 h hf'

/-- The inductive invariant of stores reachable through the API: ids are
below the counter and duplicate-free, rental states are `"active"` or
`"returned"`, the car of every active rental exists with `available = false`,
and no two distinct active rentals reference the same car. -/
structure StoreInv (s : StoreState) : Prop where
  carKeysLt : ∀ kv ∈ s.cars, kv.1 < s.nextId
  rentalKeysLt : ∀ kv ∈ s.rentals, kv.1 < s.nextId
  invoiceKeysLt : ∀ kv ∈ s.invoices, kv.1 < s.nextId
  carNodup : (s.cars.map Prod.fst).Nodup
  rentalNodup : (s.rentals.map Prod.fst).Nodup
  statusOk : ∀ kv ∈ s.rentals,
    kv.2.status = "active" ∨ kv.2.status = "returned"
  activeCar : ∀ kv ∈ s.rentals, kv.2.status = "active" →
    ∃ c, findById s.cars kv.2.car_id = some (kv.2.car_id, c) ∧
      c.available = some false
  activeUnique : ∀ kv1 ∈ s.rentals, ∀ kv2 ∈ s.rentals,
    kv1.2.status = "active" → kv2.2.status = "active" →
    kv1.2.car_id = kv2.2.car_id → kv1 = kv2

theorem inv_initState : StoreInv initState := by
  constructor <;> simp [initState]

theorem inv_add_car (s : StoreState) (p : CreateCarRequest) (h : StoreInv s) :
    StoreInv (add_car s p).2 := by
  unfold add_car
  split
  · exact h
  simp only [createDoc]
  have hgoal : StoreInv { s with
      cars := s.cars ++ [(s.nextId, ⟨p.make, p.model, p.year, p.plate_number,
        some p.daily_rate, some true, none⟩)]
      nextId := s.nextId + 1 } := by
    constructor
    · intro kv hkv
      rcases List.mem_append.mp hkv with hkv | hkv
      · exact Nat.lt_succ_of_lt (h.carKeysLt kv hkv)
      · rw [List.mem_singleton.mp hkv]
        exact Nat.lt_succ_self _
    · intro kv hkv
      exact Nat.lt_succ_of_lt (h.rentalKeysLt kv hkv)
    · intro kv hkv
      exact Nat.lt_succ_of_lt (h.invoiceKeysLt kv hkv)
    · rw [List.map_append]
      rw [List.nodup_append]
      refine ⟨h.carNodup, by simp, ?_⟩
      intro a ha hb
      simp only [List.map_cons, List.map_nil, List.mem_singleton] at hb
      rcases List.mem_map.mp ha with ⟨kv, hkv, hak⟩
      have := h.carKeysLt kv hkv
      omega
    · exact h.rentalNodup
    · exact h.statusOk
    · intro kv hkv hact
      rcases h.activeCar kv hkv hact with ⟨c, hc1, hc2⟩
      exact ⟨c, findById_append_left hc1, hc2⟩
    · exact h.activeUnique
  split
  · exact hgoal
  · exact hgoal

theorem inv_start_rental (s : StoreState) (raw name : String) (now : ℤ)
    (h : StoreInv s) : StoreInv (start_rental s raw name now).2 := by
  unfold start_rental
  split
  · exact h
  split
  · exact h
  rename_i k car hfc
  split
  · exact h
  rename_i hav
  simp only [createDoc]
  have hmem : (k, car) ∈ s.cars := (findById_eq_some hfc).2
  have hfck : findById s.cars k = some (k, car) :=
    findById_nodup_mem h.carNodup hmem
  have hno : ∀ kv ∈ s.rentals, kv.2.status = "active" →
      kv.2.car_id ≠ k := by
    intro kv hkv hact hcid
    rcases h.activeCar kv hkv hact with ⟨c, hc1, hc2⟩
    rw [hcid, hfck] at hc1
    have hcc := congrArg Prod.snd (Option.some.inj hc1)
    simp only at hcc
    rw [← hcc] at hc2
    apply hav
    rw [hc2]
    rfl
  have hgoal : StoreInv { s with
      cars := updateFirst s.cars k (fun c0 => { c0 with
        available := some false
        updated_at := some now })
      rentals := s.rentals ++ [(s.nextId,
        ⟨k, name, now, none, "active", none⟩)]
      nextId := s.nextId + 1 } := by
    constructor
    · intro kv hkv
      rcases mem_updateFirst hkv with hkv | ⟨d, hd1, hd2⟩
      · exact Nat.lt_succ_of_lt (h.carKeysLt kv hkv)
      · rw [hd2]
        exact Nat.lt_succ_of_lt (h.carKeysLt (k, d) hd1)
    · intro kv hkv
      rcases List.mem_append.mp hkv with hkv | hkv
      · exact Nat.lt_succ_of_lt (h.rentalKeysLt kv hkv)
      · rw [List.mem_singleton.mp hkv]
        exact Nat.lt_succ_self _
    · intro kv hkv
      exact Nat.lt_succ_of_lt (h.invoiceKeysLt kv hkv)
    · rw [updateFirst_map_fst]
      exact h.carNodup
    · rw [List.map_append, List.nodup_append]
      refine ⟨h.rentalNodup, by simp, ?_⟩
      intro a ha hb
      simp only [List.map_cons, List.map_nil, List.mem_singleton] at hb
      rcases List.mem_map.mp ha with ⟨kv, hkv, hak⟩
      have := h.rentalKeysLt kv hkv
      omega
    · intro kv hkv
      rcases List.mem_append.mp hkv with hkv | hkv
      · exact h.statusOk kv hkv
      · rw [List.mem_singleton.mp hkv]
        left
        rfl
    · intro kv hkv hact
      rcases List.mem_append.mp hkv with hkv | hkv
      · have hne : kv.2.car_id ≠ k := hno kv hkv hact
        rcases h.activeCar kv hkv hact with ⟨c, hc1, hc2⟩
        refine ⟨c, ?_, hc2⟩
        rw [findById_updateFirst_ne _ _ (Ne.symm hne)]
        exact hc1
      · rw [List.mem_singleton.mp hkv]
        exact ⟨_, findById_updateFirst_self _ hfck, rfl⟩
    · intro kv1 h1 kv2 h2 a1 a2 hcc
      rcases List.mem_append.mp h1 with h1 | h1 <;>
        rcases List.mem_append.mp h2 with h2 | h2
      · exact h.activeUnique kv1 h1 kv2 h2 a1 a2 hcc
      · exfalso
        apply hno kv1 h1 a1
        rw [hcc, List.mem_singleton.mp h2]
      · exfalso
        apply hno kv2 h2 a2
        rw [← hcc, List.mem_singleton.mp h1]
      · rw [List.mem_singleton.mp h1, List.mem_singleton.mp h2]
  split
  · exact hgoal
  · exact hgoal

theorem inv_return_rental (s : StoreState) (raw : String) (tax : Option ℚ)
    (t1 t2 : ℤ) (h : StoreInv s) :
    StoreInv (return_rental s raw tax t1 t2).2 := by
  unfold return_rental
  split
  · exact h
  split
  · exact h
  rename_i rk rental hfr
  split
  · exact h
  rename_i hret
  split
  · exact h
  rename_i ck car hfc
  simp only [createDoc]
  have hmemr : (rk, rental) ∈ s.rentals := (findById_eq_some hfr).2
  have hfrk : findById s.rentals rk = some (rk, rental) :=
    findById_nodup_mem h.rentalNodup hmemr
  have hck : ck = rental.car_id := by
    have := (findById_eq_some hfc).1
    simpa using this
  have hract : rental.status = "active" := by
    rcases h.statusOk (rk, rental) hmemr with ha | hr
    · simpa using ha
    · exfalso
      apply hret
      simp only at hr
      simp [hr]
  have hupd := findById_updateFirst_self (fun r => { r with
      end_date := some t1
      status := "returned"
      updated_at := some t1 }) hfrk
  split
  · rename_i hnone
    exfalso
    rw [hupd] at hnone
    exact Option.noConfusion hnone
  rename_i rk2 rental2 hfr2
  have hcopy := hfr2
  rw [hupd] at hcopy
  have hpair := Option.some.inj hcopy
  have hrk : rk = rk2 := by
    have := congrArg Prod.fst hpair
    simpa using this
  have hr2 := congrArg Prod.snd hpair
  simp only at hr2
  subst hrk
  subst hr2
  have hgoal : StoreInv { s with
      cars := updateFirst s.cars ck (fun c0 => { c0 with
        available := some true
        updated_at := some t1 })
      rentals := updateFirst s.rentals rk (fun r => { r with
        end_date := some t1
        status := "returned"
        updated_at := some t1 })
      invoices := s.invoices ++ [(s.nextId, compute_invoice (ck, car)
        (rk, { rental with
          end_date := some t1
          status := "returned"
          updated_at := some t1 }) (pyOrOpt tax) t2)]
      nextId := s.nextId + 1 } := by
    constructor
    · intro kv hkv
      rcases mem_updateFirst hkv with hkv | ⟨d, hd1, hd2⟩
      · exact Nat.lt_succ_of_lt (h.carKeysLt kv hkv)
      · rw [hd2]
        exact Nat.lt_succ_of_lt (h.carKeysLt (ck, d) hd1)
    · intro kv hkv
      rcases mem_updateFirst hkv with hkv | ⟨d, hd1, hd2⟩
      · exact Nat.lt_succ_of_lt (h.rentalKeysLt kv hkv)
      · rw [hd2]
        exact Nat.lt_succ_of_lt (h.rentalKeysLt (rk, d) hd1)
    · intro kv hkv
      rcases List.mem_append.mp hkv with hkv | hkv
      · exact Nat.lt_succ_of_lt (h.invoiceKeysLt kv hkv)
      · rw [List.mem_singleton.mp hkv]
        exact Nat.lt_succ_self _
    · rw [updateFirst_map_fst]
      exact h.carNodup
    · rw [updateFirst_map_fst]
      exact h.rentalNodup
    · intro kv hkv
      rcases mem_updateFirst hkv with hkv | ⟨d, hd1, hd2⟩
      · exact h.statusOk kv hkv
      · rw [hd2]
        right
        rfl
    · intro kv hkv hact
      rcases mem_updateFirst hkv with hold | ⟨d, hd1, hd2⟩
      · by_cases hc : kv.2.car_id = rental.car_id
        · exfalso
          have hkveq : kv = (rk, rental) :=
            h.activeUnique kv hold (rk, rental) hmemr hact hract hc
          have hkey2 : kv.1 = rk := by rw [hkveq]
          have hkv2 := mem_updateFirst_key h.rentalNodup hkv hkey2 hfrk
          have hsnd := congrArg Prod.snd (hkveq.symm.trans hkv2)
          simp only at hsnd
          have hst := congrArg RentalDoc.status hsnd
          rw [hract] at hst
          simp at hst
        · rcases h.activeCar kv hold hact with ⟨c, hc1, hc2⟩
          refine ⟨c, ?_, hc2⟩
          rw [findById_updateFirst_ne _ _ (by rw [hck]; exact Ne.symm hc)]
          exact hc1
      · exfalso
        rw [hd2] at hact
        simp at hact
    · intro kv1 h1 kv2 h2 a1 a2 hcc
      rcases mem_updateFirst h1 with h1 | ⟨d, hd1, hd2⟩
      · rcases mem_updateFirst h2 with h2 | ⟨e, he1, he2⟩
        · exact h.activeUnique kv1 h1 kv2 h2 a1 a2 hcc
        · exfalso
          rw [he2] at a2
          simp at a2
      · exfalso
        rw [hd2] at a1
        simp at a1
  split
  · exact hgoal
  · exact hgoal

theorem reachable_storeInv (s : StoreState) (h : Reachable s) : StoreInv s := by
  induction h with
  | refl => exact inv_initState
  | tail _ hstep ih =>
    cases hstep with
    | add p => exact inv_add_car _ p ih
    | start raw name now => exact inv_start_rental _ raw name now ih
    | ret raw tax t1 t2 => exact inv_return_rental _ raw tax t1 t2 ih

/-- Claim C3: in every store reachable by any sequence of API calls, no car
is referenced by two distinct active rentals; the car referenced by an active
rental exists and has `available = some false` (it stays false until that
rental is returned, at which point the rental leaves the active state); and
Start against any car whose `available` is false fails with InvalidState
(HTTP 400, "Car is not available"). -/
theorem rental_exclusivity (s : StoreState) (h : Reachable s) :
    (∀ kv1 ∈ s.rentals, ∀ kv2 ∈ s.rentals,
      kv1.2.status = "active" → kv2.2.status = "active" →
      kv1.2.car_id = kv2.2.car_id → kv1 = kv2) ∧
    (∀ kv ∈ s.rentals, kv.2.status = "active" →
      ∃ c, findById s.cars kv.2.car_id = some (kv.2.car_id, c) ∧
        c.available = some false) ∧
    (∀ (raw name : String) (now : ℤ) (k : Nat) (c : CarDoc),
      isValidOid raw = true → findById s.cars (hexToNat raw) = some (k, c) →
      c.available = some false →
      (start_rental s raw name now).1
        = .error ⟨400, "Car is not available"⟩) := by
  have hi := reachable_storeInv s h
  refine ⟨hi.activeUnique, hi.activeCar, ?_⟩
  intro raw name now k c hv hf hav
  unfold start_rental
  rw [hv, hf]
  simp [hav]

/-- Witness fixtures for C3: add one car, rent it, and observe that a second
Start against it is rejected. -/
def c3Payload : CreateCarRequest := ⟨"Toyota", "Corolla", 2020, "AB123", 100⟩

def c3S1 : StoreState := (add_car initState c3Payload).2

def c3S2 : StoreState := (start_rental c3S1 oid0 aliceName 0).2

set_option maxRecDepth 16000 in
theorem rental_exclusivity_witness :
    (start_rental c3S2 oid0 bobName 5).1
      = .error ⟨400, "Car is not available"⟩ :=
  (rental_exclusivity c3S2
    (Relation.ReflTransGen.tail (Relation.ReflTransGen.tail
      Relation.ReflTransGen.refl (Step.add initState c3Payload))
      (Step.start c3S1 oid0 aliceName 0))).2.2 oid0 bobName 5 0
    ⟨"Toyota", "Corolla", 2020, "AB123", some 100, some false, some 0⟩
    (by decide) (by with_unfolding_all decide) rfl
